import Mathlib

/-!
Verification of the RAPIDS regex email-address analysis notebook
(`RAPIDS-regex-email-addresses.ipynb`).

The notebook builds a list of email-like test strings (with one
missing-value sentinel), drops the missing value, and runs six candidate
anchored regex patterns against two dataframe engines (pandas on CPU,
cuDF on GPU), recording per-string match results and a per-pattern
agreement flag.  The regex engines themselves are external libraries;
their bracket-expression semantics is modelled here from the
specification (section 4.1).  The comparison harness (the loop over
`candidate_regexes` with its `try`/`except` recovery) is embedded
directly from the notebook source.
-/

namespace IssueAnalysis

/-- Modelled from the spec: a single item of a regex character class
(bracket expression): either a literal character (possibly produced by
an escape) or an inclusive range `low-high`. -/
inductive ClassItem where
  | lit : Char → ClassItem
  | rng : Char → Char → ClassItem
deriving DecidableEq

/-- Modelled from the spec: whether a character is accepted by one class
item.  A range accepts every character collating between its endpoints,
inclusive. -/
def itemMatches : ClassItem → Char → Bool
  | ClassItem.lit c, d => decide (d = c)
  | ClassItem.rng lo hi, d => decide (lo ≤ d) && decide (d ≤ hi)

/-- Modelled from the spec: class membership is acceptance by any item. -/
def classMem (items : List ClassItem) (c : Char) : Bool :=
  items.any (fun it => itemMatches it c)

/-- Modelled from the spec: scan of a class body (brackets stripped)
into items, applying the hyphen placement rule: a `-` is a literal when
it is the first character of the class, the last character (immediately
before `]`), or immediately after an escape marker; otherwise, placed
strictly between two ordinary characters, it denotes a range.  A range
whose endpoints are out of order, a dangling escape, or a range ending
at an escape marker fails to compile (`none`). -/
def parseClassBody : List Char → Option (List ClassItem)
  | [] => some []
  | '\\' :: c :: rest =>
    (parseClassBody rest).map (fun items => ClassItem.lit c :: items)
  | ['\\'] => none
  | c :: '-' :: [] => some [ClassItem.lit c, ClassItem.lit '-']
  | _ :: '-' :: '\\' :: _ => none
  | c :: '-' :: d :: rest =>
    if c ≤ d then (parseClassBody rest).map (fun items => ClassItem.rng c d :: items)
    else none
  | c :: rest => (parseClassBody rest).map (fun items => ClassItem.lit c :: items)

/-- Modelled from the spec: split a pattern tail at the closing `]` of a
class, keeping escape pairs intact inside the body; returns the body and
the remainder after `]`. -/
def takeClassBody : List Char → Option (List Char × List Char)
  | [] => none
  | ']' :: rest => some ([], rest)
  | '\\' :: c :: rest =>
    (takeClassBody rest).map (fun p => ('\\' :: c :: p.1, p.2))
  | c :: rest => (takeClassBody rest).map (fun p => (c :: p.1, p.2))

/-- Modelled from the spec: parse a candidate pattern of the exact shape
`(^[local]+@[host]+\.[tail]+$)` into its three character classes;
`none` when the pattern does not have this shape or a class fails to
compile. -/
def parsePattern (pat : String) : Option (List ClassItem × List ClassItem × List ClassItem) :=
  match pat.toList with
  | '(' :: '^' :: '[' :: rest =>
    match takeClassBody rest with
    | some (b1, '+' :: '@' :: '[' :: rest2) =>
      match takeClassBody rest2 with
      | some (b2, '+' :: '\\' :: '.' :: '[' :: rest3) =>
        match takeClassBody rest3 with
        | some (b3, ['+', '$', ')']) =>
          match parseClassBody b1, parseClassBody b2, parseClassBody b3 with
          | some i1, some i2, some i3 => some (i1, i2, i3)
          | _, _, _ => none
        | _ => none
      | _ => none
    | _ => none
  | _ => none

/-- Modelled from the spec: match `p+` followed by a continuation `k`,
with full backtracking: at least one character must satisfy `p`, and
after any nonempty prefix of `p`-characters the continuation may take
over. -/
def plusThen (p : Char → Bool) (k : List Char → Bool) : List Char → Bool
  | [] => false
  | c :: cs => p c && (k cs || plusThen p k cs)

/-- Modelled from the spec: anchored match of the whole string against
`^[i1]+@[i2]+\.[i3]+$`: the string must decompose as a nonempty run of
`i1`-characters, a literal `@`, a nonempty run of `i2`-characters, a
literal `.`, and a nonempty run of `i3`-characters reaching the end. -/
def matchAnchored (i1 i2 i3 : List ClassItem) (s : String) : Bool :=
  plusThen (classMem i1)
    (fun l => match l with
      | '@' :: l2 =>
        plusThen (classMem i2)
          (fun l3 => match l3 with
            | '.' :: l4 => plusThen (classMem i3) (fun l5 => l5.isEmpty) l4
            | _ => false) l2
      | _ => false) s.toList

/-- Modelled from the spec: the observable outcome of one engine-style
evaluation of a pattern on a string: `none` when the pattern fails to
compile, otherwise the anchored boolean match result. -/
def reMatch (pat : String) (s : String) : Option Bool :=
  (parsePattern pat).map (fun t => matchAnchored t.1 t.2.1 t.2.2 s)

/-- Modelled from the spec: membership predicate of a standalone class
body such as `a-zA-Z0-9-.`; `false` everywhere when the body fails to
compile. -/
def memOfBody (body : String) (c : Char) : Bool :=
  match parseClassBody body.toList with
  | some items => classMem items c
  | none => false

/-- The hardcoded test data of the notebook: 13 entries, with `np.nan`
(the missing-value sentinel) embedded as `none`. -/
def test_data_list : List (Option String) :=
  [ some "john.smith@example.com",
    none,
    some "team@domain.com",
    some "junk@example.com",
    some "hithere@whatsup.yo",
    some "hi-there@whatsup.yo",
    some "hithere@whats-up.yo",
    some "hi-there@whats-up.yo",
    some "hi.there@whatsup.yo",
    some "hithere@whats.up.yo",
    some "hi.there@whats.up.yo",
    some "hi_there@whats.up.yo",
    some "hi_there@whats_up.yo" ]

/-- The six candidate regex patterns of the notebook, verbatim. -/
def candidate_regexes : List String :=
  [ "(^[a-zA-Z0-9_.+-]+@[a-zA-Z0-9-]+\\.[a-zA-Z0-9-.]+$)",
    "(^[a-zA-Z0-9_.+\\-]+@[a-zA-Z0-9\\-]+\\.[a-zA-Z0-9-.]+$)",
    "(^[a-zA-Z0-9_+-.]+@[a-zA-Z0-9-.]+\\.[a-zA-Z0-9-.]+$)",
    "(^[a-zA-Z0-9_+-.]+@[a-zA-Z0-9\\-.]+\\.[a-zA-Z0-9-.]+$)",
    "(^[a-zA-Z0-9_+-.]+@[a-zA-Z0-9.\\-]+\\.[a-zA-Z0-9-.]+$)",
    "(^[a-zA-Z0-9_+-.]+@[a-zA-Z0-9-\\.]+\\.[a-zA-Z0-9-.]+$)" ]

/-- `dropna`: the retained (non-missing) strings of a raw series. -/
def seriesOf (l : List (Option String)) : List String :=
  l.filterMap id

/-- `pd_series` / `cu_series` after `dropna()`: the 12 retained strings. -/
def pd_series : List String := seriesOf test_data_list

/-- Python `str` applied to a list entry: the missing sentinel prints as
`"nan"`, a string prints as itself. -/
def strOf : Option String → String
  | none => "nan"
  | some s => s

/-- `test_data_to_show`: the display list, keeping the entries whose
string form differs from `"nan"` (the notebook's
`[emailadr for emailadr in test_data_list if str(emailadr) != 'nan']`). -/
def test_data_to_show : List String :=
  test_data_list.filterMap (fun x => if strOf x = "nan" then none else some (strOf x))

/-- A cell of the result table: either a boolean match result or the
error sentinel `-1` substituted when the second engine fails. -/
inductive MVal where
  | b : Bool → MVal
  | err : MVal
deriving DecidableEq

/-- One iteration of the notebook's loop over `candidate_regexes`, for
one pattern.  An engine is a function from a pattern to `some` result
list, or `none` when the library raises.  `pdm` is the value of the
Python variable `pd_matches` entering the iteration (`none` when it has
never been assigned).  The iteration:
  - `pd_matches = pd_series.str.match(pat)` inside `try`: on failure the
    variable keeps its previous value;
  - `cu_matches = cu_series.str.match(pat)` inside `try`: on failure the
    handler builds `cu_error_matches = np.empty(pd_matches.size)` filled
    with the sentinel `-1`;
  - records the `pd-regex-ii` and `cu-regex-ii` columns and
    `are_regex_results_equal[ii] = pd_matches.equals(cu_matches.to_pandas())`.
Returns the recorded pandas column, the recorded cuDF column, the
agreement flag, and the new value of `pd_matches`, or `none` when the
iteration dereferences a never-assigned `pd_matches` (a `NameError`
aborting the cell). -/
def runPattern (pdE cuE : String → Option (List Bool)) (pat : String)
    (pdm : Option (List Bool)) :
    Option (List MVal × List MVal × Bool × Option (List Bool)) :=
  let pdm2 := match pdE pat with
    | some r => some r
    | none => pdm
  match pdm2 with
  | none => none
  | some pdr =>
    let cuCol : List MVal := match cuE pat with
      | some cs => cs.map MVal.b
      | none => List.replicate pdr.length MVal.err
    let pdCol : List MVal := pdr.map MVal.b
    some (pdCol, cuCol, decide (pdCol = cuCol), some pdr)

/-- The whole loop over a list of patterns, threading the `pd_matches`
variable; `none` when any iteration aborts the cell. -/
def runHarness (pdE cuE : String → Option (List Bool)) :
    List String → Option (List Bool) → Option (List (List MVal × List MVal × Bool))
  | [], _ => some []
  | pat :: rest, pdm =>
    match runPattern pdE cuE pat pdm with
    | none => none
    | some (pdCol, cuCol, agree, pdm2) =>
      match runHarness pdE cuE rest pdm2 with
      | none => none
      | some out => some ((pdCol, cuCol, agree) :: out)

/-- Modelled from the spec: the first (CPU) engine on an arbitrary raw
input list — it compiles the pattern under the published grammar and
matches every retained string, one result per retained string. -/
def pdEngineOn (input : List (Option String)) (pat : String) : Option (List Bool) :=
  (parsePattern pat).map (fun t => (seriesOf input).map (matchAnchored t.1 t.2.1 t.2.2))

/-- Modelled from the spec: the first engine on the notebook's data. -/
def pdEngine (pat : String) : Option (List Bool) :=
  pdEngineOn test_data_list pat

/-- Concrete first-engine behaviour for the isolation counterexample:
succeeds on pattern `"p0"` with `[true]` and raises on every other
pattern. -/
def pdEngA : String → Option (List Bool) :=
  fun p => if p = "p0" then some [true] else none

/-- The same engine, except that on pattern `"p1"` it succeeds with
`[false]` instead of raising. -/
def pdEngB : String → Option (List Bool) :=
  fun p => if p = "p0" then some [true] else if p = "p1" then some [false] else none

/-- A second-engine stub that always succeeds with `[true]`. -/
def cuEngC : String → Option (List Bool) :=
  fun _ => some [true]

/-- Helper: whatever branches were taken, a successful iteration records
as agreement flag exactly the equality test of the two recorded
columns. -/
theorem runPattern_agree (pdE cuE : String → Option (List Bool)) (pat : String)
    (pdm : Option (List Bool)) (pdCol cuCol : List MVal) (agree : Bool)
    (st : Option (List Bool))
    (h : runPattern pdE cuE pat pdm = some (pdCol, cuCol, agree, st)) :
    agree = decide (pdCol = cuCol) := by
  unfold runPattern at h
  cases hpd : pdE pat with
  | some r =>
    rw [hpd] at h
    simp only [Option.some.injEq, Prod.mk.injEq] at h
    obtain ⟨h1, h2, h3, _⟩ := h
    rw [← h1, ← h2]
    exact h3.symm
  | none =>
    rw [hpd] at h
    cases pdm with
    | none => exact absurd h (by simp)
    | some prev =>
      simp only [Option.some.injEq, Prod.mk.injEq] at h
      obtain ⟨h1, h2, h3, _⟩ := h
      rw [← h1, ← h2]
      exact h3.symm

/-- Helper: a successful iteration whose first-engine evaluation
succeeded records the first engine's fresh result, and its second
column is either sentinel rows sized by that result or the second
engine's own rows. -/
theorem runPattern_cols (pdE cuE : String → Option (List Bool)) (pat : String)
    (pdm : Option (List Bool)) (pdr : List Bool) (pdCol cuCol : List MVal)
    (agree : Bool) (st : Option (List Bool))
    (hpd : pdE pat = some pdr)
    (h : runPattern pdE cuE pat pdm = some (pdCol, cuCol, agree, st)) :
    pdCol = pdr.map MVal.b ∧
    (cuCol = List.replicate pdr.length MVal.err ∨
      ∃ l, cuE pat = some l ∧ cuCol = l.map MVal.b) := by
  unfold runPattern at h
  rw [hpd] at h
  cases hc : cuE pat with
  | some cs =>
    rw [hc] at h
    simp only [Option.some.injEq, Prod.mk.injEq] at h
    obtain ⟨h1, h2, _, _⟩ := h
    exact ⟨h1.symm, Or.inr ⟨cs, rfl, h2.symm⟩⟩
  | none =>
    rw [hc] at h
    simp only [Option.some.injEq, Prod.mk.injEq] at h
    obtain ⟨h1, h2, _, _⟩ := h
    exact ⟨h1.symm, Or.inl h2.symm⟩

/-- Claim C1: for every retained test string, anchored matching under
the hyphen-last pattern (candidate 0) and under the escaped-hyphen
pattern (candidate 1) yields the same boolean result. -/
theorem claim_C1 :
    ∀ s, s ∈ pd_series →
      reMatch (candidate_regexes.getD 0 "") s = reMatch (candidate_regexes.getD 1 "") s := by
  decide

/-- Claim C1, instantiated at the string `hi-there@whatsup.yo` named by
the claim. -/
theorem claim_C1_witness :
    reMatch (candidate_regexes.getD 0 "") "hi-there@whatsup.yo" =
      reMatch (candidate_regexes.getD 1 "") "hi-there@whatsup.yo" :=
  claim_C1 "hi-there@whatsup.yo" (by decide)

/-- Claim C2, counterexample: as stated the claim is false, because the
second scenario does not match — the host class `[a-zA-Z0-9-]` of
candidate 0 does not contain the underscore, so `hi_there@whats_up.yo`
cannot decompose as `local+ @ host+ . tail+`. -/
theorem claim_C2_cex :
    ¬ (reMatch (candidate_regexes.getD 0 "") "hi-there@whats-up.yo" = some true ∧
       reMatch (candidate_regexes.getD 0 "") "hi_there@whats_up.yo" = some true) := by
  decide

/-- Claim C2, amended: candidate 0 matches `hi-there@whats-up.yo`
(hyphen literal in local part and host part), but returns `false` on
`hi_there@whats_up.yo`, whose host part contains an underscore outside
the host class. -/
theorem claim_C2 :
    reMatch (candidate_regexes.getD 0 "") "hi-there@whats-up.yo" = some true ∧
    reMatch (candidate_regexes.getD 0 "") "hi_there@whats_up.yo" = some false := by
  decide

/-- Claim C3: the three domain-tail class bodies (hyphen between `9`
and `.`, hyphen last, escaped hyphen) accept exactly the same
characters, and the candidate patterns 2 through 5, which differ only
in such hyphen forms of the host class, produce the same anchored-match
result on every retained test string. -/
theorem claim_C3 :
    (∀ c : Char,
      memOfBody "a-zA-Z0-9-." c = memOfBody "a-zA-Z0-9.-" c ∧
      memOfBody "a-zA-Z0-9-." c = memOfBody "a-zA-Z0-9\\-." c) ∧
    (∀ s, s ∈ pd_series →
      reMatch (candidate_regexes.getD 2 "") s = reMatch (candidate_regexes.getD 3 "") s ∧
      reMatch (candidate_regexes.getD 2 "") s = reMatch (candidate_regexes.getD 4 "") s ∧
      reMatch (candidate_regexes.getD 2 "") s = reMatch (candidate_regexes.getD 5 "") s) := by
  constructor
  · intro c
    constructor
    · show classMem
          [ClassItem.rng 'a' 'z', ClassItem.rng 'A' 'Z', ClassItem.rng '0' '9',
            ClassItem.lit '-', ClassItem.lit '.'] c =
        classMem
          [ClassItem.rng 'a' 'z', ClassItem.rng 'A' 'Z', ClassItem.rng '0' '9',
            ClassItem.lit '.', ClassItem.lit '-'] c
      simp only [classMem, List.any_cons, List.any_nil, itemMatches, Bool.or_false]
      rw [Bool.or_comm (decide (c = '-')) (decide (c = '.'))]
    · rfl
  · decide

/-- Claim C3, instantiated at the character `m` and the retained test
string `john.smith@example.com`. -/
theorem claim_C3_witness :
    memOfBody "a-zA-Z0-9-." 'm' = memOfBody "a-zA-Z0-9.-" 'm' ∧
    reMatch (candidate_regexes.getD 2 "") "john.smith@example.com" =
      reMatch (candidate_regexes.getD 3 "") "john.smith@example.com" :=
  ⟨(claim_C3.1 'm').1, (claim_C3.2 "john.smith@example.com" (by decide)).1⟩

/-- Claim C4: when the second engine fails on a pattern (and the first
engine produced a nonempty result), the harness records a full column
of sentinel rows for the second engine; the sentinel differs from every
boolean cell, so the recorded agreement flag is `false`. -/
theorem claim_C4 (pdE cuE : String → Option (List Bool)) (pat : String)
    (pdm : Option (List Bool)) (pdr : List Bool)
    (hpd : pdE pat = some pdr) (hcu : cuE pat = none) (hne : pdr ≠ []) :
    runPattern pdE cuE pat pdm =
      some (pdr.map MVal.b, List.replicate pdr.length MVal.err, false, some pdr) ∧
    (∀ x : Bool, MVal.b x ≠ MVal.err) := by
  have hne2 : pdr.map MVal.b ≠ List.replicate pdr.length MVal.err := by
    cases pdr with
    | nil => exact absurd rfl hne
    | cons a l =>
      intro hcontra
      rw [List.map_cons, List.length_cons, List.replicate_succ] at hcontra
      exact MVal.noConfusion (List.head_eq_of_cons_eq hcontra)
  constructor
  · have h1 : runPattern pdE cuE pat pdm =
        some (pdr.map MVal.b, List.replicate pdr.length MVal.err,
          decide (pdr.map MVal.b = List.replicate pdr.length MVal.err), some pdr) := by
      unfold runPattern
      rw [hpd, hcu]
    rw [h1, decide_eq_false hne2]
  · intro x hx
    exact MVal.noConfusion hx

/-- Claim C4, instantiated: first engine yields `[true]`, second engine
raises. -/
theorem claim_C4_witness :
    runPattern (fun _ => some [true]) (fun _ => none) "p" none =
      some ([true].map MVal.b, List.replicate 1 MVal.err, false, some [true]) ∧
    (∀ x : Bool, MVal.b x ≠ MVal.err) :=
  claim_C4 (fun _ => some [true]) (fun _ => none) "p" none [true] rfl rfl (by decide)

/-- Claim C5: a recorded agreement flag is `true` exactly when the two
recorded columns agree position by position over the retained strings;
the sentinel cell never equals a boolean cell. -/
theorem claim_C5 (pdE cuE : String → Option (List Bool)) (pat : String)
    (pdm : Option (List Bool)) (pdCol cuCol : List MVal) (agree : Bool)
    (st : Option (List Bool))
    (h : runPattern pdE cuE pat pdm = some (pdCol, cuCol, agree, st)) :
    (agree = true ↔ ∀ i : Nat, pdCol.get? i = cuCol.get? i) ∧
    (∀ x : Bool, MVal.b x ≠ MVal.err) := by
  refine ⟨?_, fun x hx => MVal.noConfusion hx⟩
  rw [runPattern_agree pdE cuE pat pdm pdCol cuCol agree st h, decide_eq_true_eq]
  exact List.ext_get?_iff

/-- Claim C5, instantiated: both engines return `[true]` on pattern
`p0`, so the flag is `true` and the columns agree pointwise. -/
theorem claim_C5_witness :
    (true = true ↔ ∀ i : Nat,
      [MVal.b true].get? i = [MVal.b true].get? i) ∧
    (∀ x : Bool, MVal.b x ≠ MVal.err) :=
  claim_C5 pdEngA cuEngC "p0" none [MVal.b true] [MVal.b true] true (some [true]) rfl

/-- Claim C6: when the first engine fails on a pattern, no fallback is
defined — the recorded first-engine column and the loop state are the
value of `pd_matches` left over from a previous pattern; if no earlier
first-engine evaluation succeeded, the iteration dereferences an
undefined variable and aborts. -/
theorem claim_C6 (pdE cuE : String → Option (List Bool)) (pat : String)
    (hpd : pdE pat = none) :
    (∀ prev : List Bool,
      runPattern pdE cuE pat (some prev) =
        some (prev.map MVal.b,
          (match cuE pat with
           | some cs => cs.map MVal.b
           | none => List.replicate prev.length MVal.err),
          decide (prev.map MVal.b =
            (match cuE pat with
             | some cs => cs.map MVal.b
             | none => List.replicate prev.length MVal.err)),
          some prev)) ∧
    runPattern pdE cuE pat none = none := by
  constructor
  · intro prev
    unfold runPattern
    rw [hpd]
  · unfold runPattern
    rw [hpd]

/-- Claim C6, instantiated: a first engine that always raises leaves the
stale value `[true]` in the recorded column, and aborts when nothing was
ever assigned. -/
theorem claim_C6_witness :
    runPattern (fun _ => none) cuEngC "p" (some [true]) =
      some ([MVal.b true], [MVal.b true], true, some [true]) ∧
    runPattern (fun _ => none) cuEngC "p" none = none :=
  ⟨(claim_C6 (fun _ => none) cuEngC "p" rfl).1 [true],
   (claim_C6 (fun _ => none) cuEngC "p" rfl).2⟩

/-- Claim C7, counterexample: failures are not isolated as stated.  With
patterns `p0, p1, p2`, a first engine failing on `p1` and `p2` records
for `p2` the stale result of `p0`; if `p1` had not failed, `p2` would
record the stale result of `p1` instead — so an earlier failure changes
a later pattern's recorded results and agreement flag. -/
theorem claim_C7_cex :
    ∃ outA outB,
      runHarness pdEngA cuEngC ["p0", "p1", "p2"] none = some outA ∧
      runHarness pdEngB cuEngC ["p0", "p1", "p2"] none = some outB ∧
      outA.getD 2 ([], [], false) ≠ outB.getD 2 ([], [], false) := by
  refine ⟨_, _, rfl, rfl, ?_⟩
  decide

/-- Claim C7, amended: a pattern's recorded results depend on the second
engine only through its result on that very pattern, and when the first
engine succeeds on a pattern, that pattern's results are independent of
the loop state — hence unaffected by any earlier failure.  (Unqualified
isolation fails when the first engine also fails on the later
pattern.) -/
theorem claim_C7 (pdE cuE cuE2 : String → Option (List Bool)) (pat : String)
    (pdr : List Bool) (hpd : pdE pat = some pdr) :
    (∀ s1 s2 : Option (List Bool),
      runPattern pdE cuE pat s1 = runPattern pdE cuE pat s2) ∧
    (∀ s : Option (List Bool), cuE pat = cuE2 pat →
      runPattern pdE cuE pat s = runPattern pdE cuE2 pat s) := by
  constructor
  · intro s1 s2
    unfold runPattern
    rw [hpd]
  · intro s hcu
    unfold runPattern
    rw [hpd, hcu]

/-- Claim C7 (amended), instantiated: with the first engine succeeding
on `p0`, the recorded results do not depend on the incoming loop
state. -/
theorem claim_C7_witness :
    runPattern pdEngA cuEngC "p0" none = runPattern pdEngA cuEngC "p0" (some [false]) :=
  (claim_C7 pdEngA cuEngC cuEngC "p0" [true] rfl).1 none (some [false])

/-- Claim C10: if both engines fail on the very first pattern, the error
handler dereferences the never-assigned `pd_matches` and the whole run
aborts; once the first engine has succeeded on the current or an earlier
pattern (so the loop state is defined), the abort branch is
unreachable. -/
theorem claim_C10 (pdE cuE : String → Option (List Bool)) (pat : String)
    (pats : List String) (h1 : pdE pat = none) (h2 : cuE pat = none) :
    runHarness pdE cuE (pat :: pats) none = none ∧
    (∀ prev : List Bool, runPattern pdE cuE pat (some prev) ≠ none) := by
  constructor
  · have habort : runPattern pdE cuE pat none = none := by
      unfold runPattern
      rw [h1]
    unfold runHarness
    rw [habort]
  · intro prev hcontra
    unfold runPattern at hcontra
    rw [h1, h2] at hcontra
    simp at hcontra

/-- Claim C10, instantiated: two always-failing engines abort the run on
the first pattern, while a defined loop state prevents the abort. -/
theorem claim_C10_witness :
    runHarness (fun _ => none) (fun _ => none) ["p0"] none = none ∧
    runPattern (fun _ => none) (fun _ => none) "p0" (some []) ≠ none :=
  ⟨(claim_C10 (fun _ => none) (fun _ => none) "p0" [] rfl rfl).1,
   (claim_C10 (fun _ => none) (fun _ => none) "p0" [] rfl rfl).2 []⟩

/-- Claim C8: of the 13 literal inputs exactly one is the missing-value
sentinel; the retained series and the display list both hold exactly
the 12 non-missing strings (and coincide); the first engine produces a
12-entry column for every candidate pattern, and an iteration of the
harness on a candidate pattern records 12-entry columns for both
engines whenever the second engine, when it succeeds, is per-string
(one result per retained string). -/
theorem claim_C8 :
    test_data_list.length = 13 ∧
    test_data_list.countP (fun x => x.isNone) = 1 ∧
    pd_series.length = 12 ∧
    test_data_to_show = pd_series ∧
    test_data_to_show.length = 12 ∧
    (∀ pat, pat ∈ candidate_regexes →
      (pdEngine pat).isSome = true ∧ ((pdEngine pat).getD []).length = 12) ∧
    (∀ (cuE : String → Option (List Bool)) (pat : String)
        (pdm : Option (List Bool)) (pdCol cuCol : List MVal) (agree : Bool)
        (st : Option (List Bool)),
      pat ∈ candidate_regexes →
      (∀ q l, cuE q = some l → l.length = 12) →
      runPattern pdEngine cuE pat pdm = some (pdCol, cuCol, agree, st) →
      pdCol.length = 12 ∧ cuCol.length = 12) := by
  refine ⟨by decide, by decide, by decide, by decide, by decide, by decide, ?_⟩
  intro cuE pat pdm pdCol cuCol agree st hp hcu h
  have h12 : ∀ q, q ∈ candidate_regexes →
      (pdEngine q).isSome = true ∧ ((pdEngine q).getD []).length = 12 := by decide
  obtain ⟨hsome, hlen⟩ := h12 pat hp
  obtain ⟨pdr, hpdr⟩ := Option.isSome_iff_exists.mp hsome
  rw [hpdr] at hlen
  simp only [Option.getD_some] at hlen
  obtain ⟨hcol, hcu2⟩ := runPattern_cols pdEngine cuE pat pdm pdr pdCol cuCol agree st hpdr h
  refine ⟨by rw [hcol, List.length_map, hlen], ?_⟩
  rcases hcu2 with hrep | ⟨l, hl, hmap⟩
  · rw [hrep, List.length_replicate, hlen]
  · rw [hmap, List.length_map, hcu pat l hl]

/-- Claim C8, instantiated at candidate 0: the first engine succeeds and
its column has the 12 retained entries. -/
theorem claim_C8_witness :
    (pdEngine (candidate_regexes.getD 0 "")).isSome = true ∧
    ((pdEngine (candidate_regexes.getD 0 "")).getD []).length = 12 :=
  claim_C8.2.2.2.2.2.1 (candidate_regexes.getD 0 "") (by decide)

/-- Claim C9: removing the missing-value sentinel from the raw input
list leaves the retained series unchanged, hence every computation made
from the retained series — any engine applied to it, the modelled first
engine, and the whole harness — yields identical results with or
without the sentinel present. -/
theorem claim_C9 :
    ∀ input : List (Option String),
      seriesOf (input.filter (fun x => x.isSome)) = seriesOf input ∧
      (∀ (g : String → List String → Option (List Bool)) (pat : String),
        g pat (seriesOf (input.filter (fun x => x.isSome))) =
          g pat (seriesOf input)) ∧
      (∀ pat : String,
        pdEngineOn (input.filter (fun x => x.isSome)) pat = pdEngineOn input pat) ∧
      (∀ (cuE : String → Option (List Bool)) (pats : List String)
          (st : Option (List Bool)),
        runHarness (pdEngineOn (input.filter (fun x => x.isSome))) cuE pats st =
          runHarness (pdEngineOn input) cuE pats st) := by
  intro input
  have hs : seriesOf (input.filter (fun x => x.isSome)) = seriesOf input := by
    induction input with
    | nil => rfl
    | cons a l ih =>
      cases a with
      | none =>
        simpa only [seriesOf, List.filter_cons, Option.isSome_none,
          Bool.false_eq_true, if_neg, List.filterMap_cons, id_eq,
          reduceCtorEq, ite_false] using ih
      | some s =>
        simp only [seriesOf, List.filter_cons, Option.isSome_some, if_pos,
          List.filterMap_cons, id_eq, ite_true]
        exact congrArg (List.cons s) ih
  have hfun : pdEngineOn (input.filter (fun x => x.isSome)) = pdEngineOn input := by
    funext pat
    unfold pdEngineOn
    rw [hs]
  exact ⟨hs, fun g pat => by rw [hs], fun pat => by rw [hfun],
    fun cuE pats st => by rw [hfun]⟩

end IssueAnalysis
